import Mathlib

/-!
Shallow embedding of the wallet/currency ledger of the SteamProject repository.

Scope (the code the claims are about):
* `store/utils/currency.py`: `_FALLBACK_USD`, `_fetch_rates`, `convert_amount`;
* `store/models.py`: `UserProfile.add_balance`, `UserProfile.deduct_balance`,
  `UserProfile.convert_balance`, `CurrencyRate.latest_rate`, `WalletTransaction`;
* `store/views.py`: the wallet branches of `WalletTopupView.post` and
  `OrderPayView.post`.

Modelling conventions:
* Python `Decimal` values are modelled as exact rationals (`ℚ`); `quantize2`
  models `Decimal.quantize` at two places with ROUND_HALF_UP.  The
  float rates of the source pass through `Decimal(str(rate))`, whose value for the
  static table literals is exactly the written decimal; float/Decimal division
  in the derived tables is modelled as exact rational division.
* Python dicts keyed by currency code are association lists with
  last-write-wins insertion (`dinsert`), matching dict-comprehension
  overwrite semantics, which is observable in the DB-fallback path.
* The in-memory rate cache is modelled cold (the claims all concern the
  cold-cache behaviour; cache population does not change the value returned
  by the call that populates it).
* The live-fetch network call is an external input: `FetchConfig.fetchResult`
  is `some raw` for a successful HTTP response whose parsed `rates` mapping is
  `raw`, and `none` for any network/HTTP/parse failure.
-/

namespace SteamWallet

/-- Model of `Decimal.quantize` at two places with ROUND_HALF_UP:
round to 2 fractional digits, ties away from zero. -/
def quantize2 (x : ℚ) : ℚ :=
  if 0 ≤ x then ((⌊x * 100 + 1/2⌋ : ℤ) : ℚ) / 100
  else -(((⌊(-x) * 100 + 1/2⌋ : ℤ) : ℚ) / 100)

/-- Python `dict.get` on an association list. -/
def dget (k : String) : List (String × ℚ) → Option ℚ
  | [] => none
  | (k₁, v) :: rest => if k₁ = k then some v else dget k rest

/-- Python dict assignment `d[k] = v`: overwrite in place, else append. -/
def dinsert (k : String) (v : ℚ) : List (String × ℚ) → List (String × ℚ)
  | [] => [(k, v)]
  | (k₁, v₁) :: rest => if k₁ = k then (k, v) :: rest else (k₁, v₁) :: dinsert k v rest

/-- Table `_FALLBACK_USD` from `store/utils/currency.py` (rates relative to USD). -/
def FALLBACK_USD : List (String × ℚ) :=
  [("USD", 1), ("EUR", 92/100), ("GBP", 78/100), ("UAH", 41), ("RUB", 92),
   ("JPY", 150), ("CAD", 137/100), ("AUD", 155/100), ("CNY", 730/100), ("PLN", 398/100)]

/-- A row of the `CurrencyRate` model (`store/models.py`): a timestamped
`(base, target, rate)` snapshot.  `fetched_at` is a logical timestamp. -/
structure CurrencyRate where
  base : String
  target : String
  rate : ℚ
  fetched_at : ℕ
deriving DecidableEq, Repr

/-- Insert into a list kept in descending `fetched_at` order. -/
def insertDesc (r : CurrencyRate) : List CurrencyRate → List CurrencyRate
  | [] => [r]
  | x :: xs => if x.fetched_at ≤ r.fetched_at then r :: x :: xs else x :: insertDesc r xs

/-- Model of `order_by` on descending `fetched_at`: sort newest first. -/
def sortDesc : List CurrencyRate → List CurrencyRate
  | [] => []
  | x :: xs => insertDesc x (sortDesc xs)

/-- The DB-fallback read of `_fetch_rates`:
`recs = CurrencyRate.objects.filter(base=base).order_by(descending fetched_at)[:len(_FALLBACK_USD)]`
then `db_rates = {r.target: float(r.rate) for r in recs if r.target in _FALLBACK_USD}`.
The dict comprehension iterates `recs` newest-first and later (older) entries
overwrite earlier (newer) ones. -/
def dbRatesFor (db : List CurrencyRate) (base : String) : List (String × ℚ) :=
  let recs := (sortDesc (db.filter (fun r => r.base = base))).take FALLBACK_USD.length
  recs.foldl
    (fun acc r => if (dget r.target FALLBACK_USD).isSome then dinsert r.target r.rate acc else acc)
    []

/-- Classmethod `CurrencyRate.latest_rate` (`store/models.py`): rate of the most recent
record for `(base, target)`, or `none`. -/
def latest_rate (db : List CurrencyRate) (base target : String) : Option ℚ :=
  ((sortDesc (db.filter (fun r => r.base = base ∧ r.target = target))).head?).map
    (fun r => r.rate)

/-- The static-table tier of `_fetch_rates` (lines 53-60 and 103-114 of
`currency.py`): USD gets the table itself; a known non-USD base gets the
USD-pivot-derived table `{cur: val / rate_base}`; an unknown base gets the
USD table as last resort. -/
def staticRates (base : String) : List (String × ℚ) :=
  if base = "USD" then FALLBACK_USD
  else
    match dget base FALLBACK_USD with
    | some rate_base => FALLBACK_USD.map (fun cv => (cv.1, cv.2 / rate_base))
    | none => FALLBACK_USD

/-- DB fallback first (used only when it yields a non-empty supported-rate
dict), then static fallback — shared by the disabled-fetch path (lines 41-60)
and the post-failure path (lines 91-114) of `_fetch_rates`. -/
def dbOrStatic (db : List CurrencyRate) (base : String) : List (String × ℚ) :=
  let dbr := dbRatesFor db base
  if dbr.isEmpty then staticRates base else dbr

/-- Configuration and external-world inputs of `_fetch_rates`. -/
structure FetchConfig where
  /-- Flag `settings.CURRENCY_FETCH_ENABLED`. -/
  fetchEnabled : Bool
  /-- outcome of the live HTTP fetch: `some raw` = parsed `rates` mapping of a
  successful response, `none` = any exception (timeout, HTTP error, parse). -/
  fetchResult : Option (List (String × ℚ))

/-- Python `{str(k): float(v) for k, v in rates.items() if str(k) in _FALLBACK_USD}`. -/
def liveFiltered (raw : List (String × ℚ)) : List (String × ℚ) :=
  raw.foldl
    (fun acc kv => if (dget kv.1 FALLBACK_USD).isSome then dinsert kv.1 kv.2 acc else acc)
    []

/-- Function `_fetch_rates(base)` (cold cache): with live fetch disabled, DB fallback
then static; with live fetch enabled, a successful non-empty filtered
response wins, otherwise fall through to DB fallback then static. -/
def fetch_rates (cfg : FetchConfig) (db : List CurrencyRate) (base : String) :
    List (String × ℚ) :=
  if cfg.fetchEnabled then
    match cfg.fetchResult with
    | some raw =>
        let filtered := liveFiltered raw
        if filtered.isEmpty then dbOrStatic db base else filtered
    | none => dbOrStatic db base
  else dbOrStatic db base

/-- Function `convert_amount(amount, from_currency, to_currency)`:
identity + rounding when the currencies match; else direct rate from
`_fetch_rates(from_currency)`; else USD pivot (taken only when both USD rates
are present and truthy, i.e. non-zero); else identity + rounding. -/
def convert_amount (cfg : FetchConfig) (db : List CurrencyRate)
    (amount : ℚ) (from_currency to_currency : String) : ℚ :=
  if from_currency = to_currency then quantize2 amount
  else
    match dget to_currency (fetch_rates cfg db from_currency) with
    | some rate_to => quantize2 (amount * rate_to)
    | none =>
        let usd_rates := fetch_rates cfg db "USD"
        match dget from_currency usd_rates, dget to_currency usd_rates with
        | some r_from, some r_to =>
            if r_from ≠ 0 ∧ r_to ≠ 0 then quantize2 (amount / r_from * r_to)
            else quantize2 amount
        | _, _ => quantize2 amount

/-! ## Wallet ledger (`store/models.py`, `store/views.py`) -/

/-- Result of `Decimal(str(amount))` on a caller-supplied amount: `num q` when
parsing succeeds with value `q`, `invalid` when it raises. -/
inductive AmountInput where
  | num (q : ℚ)
  | invalid
deriving DecidableEq, Repr

/-- The wallet-relevant fields of `UserProfile`. -/
structure Profile where
  balance : ℚ
  preferred_currency : String
deriving DecidableEq, Repr

/-- Method `UserProfile.add_balance(amount, currency)`: invalid or non-positive input
is a silent no-op (the method returns `None` in every case, so the caller gets
no success signal); a foreign-currency amount is converted into
`preferred_currency` first; then `balance += amt`. -/
def add_balance (cfg : FetchConfig) (db : List CurrencyRate) (p : Profile)
    (amount : AmountInput) (currency : Option String) : Profile :=
  match amount with
  | .invalid => p
  | .num amt₀ =>
    if amt₀ ≤ 0 then p
    else
      let cur := currency.getD p.preferred_currency
      let amt := if cur ≠ p.preferred_currency then
          convert_amount cfg db amt₀ cur p.preferred_currency
        else amt₀
      { p with balance := p.balance + amt }

/-- Method `UserProfile.deduct_balance(amount, currency, allow_negative)`: returns
`false` on invalid input, non-positive input, or (without `allow_negative`)
when the new balance would be negative — mutating nothing in those cases;
otherwise commits `balance = balance - amt` and returns `true`. -/
def deduct_balance (cfg : FetchConfig) (db : List CurrencyRate) (p : Profile)
    (amount : AmountInput) (currency : Option String) (allow_negative : Bool) :
    Bool × Profile :=
  match amount with
  | .invalid => (false, p)
  | .num amt₀ =>
    if amt₀ ≤ 0 then (false, p)
    else
      let cur := currency.getD p.preferred_currency
      let amt := if cur ≠ p.preferred_currency then
          convert_amount cfg db amt₀ cur p.preferred_currency
        else amt₀
      let new_balance := p.balance - amt
      if allow_negative = false ∧ new_balance < 0 then (false, p)
      else (true, { p with balance := new_balance })

/-- Method `UserProfile.convert_balance(new_currency)`: no-op when the currency is
unchanged; otherwise re-denominate the balance via `convert_amount` and set
`preferred_currency`, both in the same write
(one `save` call updating the fields balance and preferred_currency). -/
def convert_balance (cfg : FetchConfig) (db : List CurrencyRate) (p : Profile)
    (new_currency : String) : Profile :=
  if new_currency = p.preferred_currency then p
  else
    { balance := convert_amount cfg db p.balance p.preferred_currency new_currency,
      preferred_currency := new_currency }

/-- A `WalletTransaction` row (`store/models.py`). -/
structure WalletTx where
  amount : ℚ
  currency : String
  source_amount : Option ℚ
  source_currency : Option String
  kind : String
  balance_after : ℚ
deriving DecidableEq, Repr

/-- Per-user wallet state: the profile plus the transaction log in creation
order (oldest first). -/
structure WalletState where
  profile : Profile
  log : List WalletTx
deriving DecidableEq, Repr

/-- Handler `WalletTopupView.post` after form validation (`store/views.py` lines
1877-1921): parse the amount, reject non-positive amounts and amounts below
the $1-equivalent minimum, convert into the preferred currency when the chosen
currency differs, credit via `add_balance`, and append a `topup` transaction
recording the actually credited delta and the resulting balance.
`logFails` models the `try/except: pass` around
`WalletTransaction.objects.create`: when the create raises, the exception is
swallowed and no row is appended. -/
def wallet_topup_post (cfg : FetchConfig) (db : List CurrencyRate) (logFails : Bool)
    (st : WalletState) (amount : AmountInput) (chosen_currency : String) : WalletState :=
  match amount with
  | .invalid => st
  | .num amt =>
    if amt ≤ 0 then st
    else
      let min_amt := convert_amount cfg db 1 "USD" chosen_currency
      if amt < min_amt then st
      else
        let target_cur := st.profile.preferred_currency
        let credited := if chosen_currency ≠ target_cur then
            convert_amount cfg db amt chosen_currency target_cur
          else amt
        let before := st.profile.balance
        let p₁ := add_balance cfg db st.profile (.num credited) (some target_cur)
        let delta := p₁.balance - before
        if logFails then { st with profile := p₁ }
        else
          { profile := p₁,
            log := st.log ++
              [{ amount := delta, currency := target_cur,
                 source_amount := if chosen_currency ≠ target_cur then some amt else none,
                 source_currency := if chosen_currency ≠ target_cur then some chosen_currency else none,
                 kind := "topup", balance_after := p₁.balance }] }

/-- The wallet branch of `OrderPayView.post` (`store/views.py` lines
1420-1457): when the user pays with the wallet and the balance is positive,
convert the order total into the preferred currency, and only if the balance
covers it call `deduct_balance`; on success append a `purchase_deduct`
transaction whose amount is the negated actual balance change.  `logFails`
models the `try/except: pass` around `WalletTransaction.objects.create`. -/
def order_pay_post (cfg : FetchConfig) (db : List CurrencyRate) (logFails : Bool)
    (st : WalletState) (use_wallet : Bool) (total : ℚ) (order_currency : String) :
    WalletState :=
  if use_wallet ∧ 0 < st.profile.balance then
    let to_charge := if order_currency ≠ st.profile.preferred_currency then
        convert_amount cfg db total order_currency st.profile.preferred_currency
      else total
    if st.profile.balance ≥ to_charge then
      let before := st.profile.balance
      let r := deduct_balance cfg db st.profile (.num to_charge)
        (some st.profile.preferred_currency) false
      if r.1 then
        if logFails then { st with profile := r.2 }
        else
          { profile := r.2,
            log := st.log ++
              [{ amount := (before - r.2.balance) * (-1), currency := r.2.preferred_currency,
                 source_amount := some total, source_currency := some order_currency,
                 kind := "purchase_deduct", balance_after := r.2.balance }] }
      else { st with profile := r.2 }
    else st
  else st

/-- One ledger operation of the two wallet-mutating request handlers (success
path of the log write, i.e. `logFails = false`). -/
inductive LedgerOp where
  | topup (amount : AmountInput) (chosen_currency : String)
  | pay (use_wallet : Bool) (total : ℚ) (order_currency : String)
deriving Repr

/-- Apply one operation to the wallet state. -/
def applyOp (cfg : FetchConfig) (db : List CurrencyRate) (st : WalletState) :
    LedgerOp → WalletState
  | .topup a c => wallet_topup_post cfg db false st a c
  | .pay u t c => order_pay_post cfg db false st u t c

/-- Sum of `WalletTransaction.amount` over a log. -/
def txSum (l : List WalletTx) : ℚ := (l.map (fun t => t.amount)).sum

/-- Check that, reading the log in creation order starting from running total
`acc`, every `balance_after` equals the running sum of amounts up to and
including that transaction. -/
def runningOkB : ℚ → List WalletTx → Bool
  | _, [] => true
  | acc, t :: ts => (decide (t.balance_after = acc + t.amount)) && runningOkB (acc + t.amount) ts

/-! ## Concurrency model for `deduct_balance` (`store/models.py` lines 367-392)

`deduct_balance` is a plain read-modify-write on `UserProfile.balance`: it
reads the balance held by the model instance of the request, computes
`new_balance = balance - amt` locally, checks `new_balance < 0` on the local
value, and then issues an absolute write `balance = new_balance`
(one `save` call updating the field balance).  There is no row lock,
`select_for_update`, or compare-and-swap anywhere on this path.  The model
below specializes to two in-flight same-currency debits with
`allow_negative=False` and a positive amount; each process takes a read step
and then a check-and-write step (the view appends the `purchase_deduct`
record on success), and a schedule interleaves the steps. -/

/-- One in-flight `deduct_balance` call: its amount, the locally computed
`new_balance` once the read step ran, and its return value once finished. -/
structure RaceProc where
  amt : ℚ
  nb : Option ℚ
  result : Option Bool
deriving DecidableEq, Repr

/-- Shared balance row, committed `purchase_deduct` amounts, two processes. -/
structure RaceState where
  balance : ℚ
  log : List ℚ
  proc₁ : RaceProc
  proc₂ : RaceProc
deriving DecidableEq, Repr

/-- Advance one process by one step against the shared balance: first the
read/compute step, then the check-and-write step (success writes the absolute
new balance and commits a transaction of `-amt`). -/
def procStep (bal : ℚ) (log : List ℚ) (pr : RaceProc) : RaceProc × ℚ × List ℚ :=
  match pr.nb, pr.result with
  | none, _ => ({ pr with nb := some (bal - pr.amt) }, bal, log)
  | some nb, none =>
      if nb < 0 then ({ pr with result := some false }, bal, log)
      else ({ pr with result := some true }, nb, log ++ [-pr.amt])
  | some _, some _ => (pr, bal, log)

/-- Scheduler step: `false` advances process 1, `true` advances process 2. -/
def raceStep (st : RaceState) (who : Bool) : RaceState :=
  if who then
    let r := procStep st.balance st.log st.proc₂
    { st with proc₂ := r.1, balance := r.2.1, log := r.2.2 }
  else
    let r := procStep st.balance st.log st.proc₁
    { st with proc₁ := r.1, balance := r.2.1, log := r.2.2 }

/-- Run a schedule of interleaved steps. -/
def raceRun (init : RaceState) (sched : List Bool) : RaceState :=
  sched.foldl raceStep init

/-- Ledger invariant: the balance equals the sum of all recorded transaction
amounts, and every `balance_after` is the running sum up to and including its
transaction. -/
def LedgerInv (st : WalletState) : Prop :=
  st.profile.balance = txSum st.log ∧ runningOkB 0 st.log = true

/-- Atomicity property asserted by the specification for the pair
(balance mutation, transaction-log append): a mutation of the balance is
always accompanied by exactly one appended transaction record. -/
def atomicLogAppend (st st₁ : WalletState) : Prop :=
  st₁.profile.balance ≠ st.profile.balance → st₁.log.length = st.log.length + 1

/-- Settings flow (`store/views.py` lines 624-628): when the submitted
preferred currency differs from the current one, call
`UserProfile.convert_balance`; the flow never touches the transaction log. -/
def settings_change_currency (cfg : FetchConfig) (db : List CurrencyRate)
    (st : WalletState) (new_cur : String) : WalletState :=
  if new_cur ≠ st.profile.preferred_currency then
    { st with profile := convert_balance cfg db st.profile new_cur }
  else st

/-! ## Helper lemmas -/

lemma txSum_append (l : List WalletTx) (t : WalletTx) :
    txSum (l ++ [t]) = txSum l + t.amount := by
  simp [txSum]

lemma runningOkB_append (acc : ℚ) (l : List WalletTx) (t : WalletTx) :
    runningOkB acc (l ++ [t]) =
      (runningOkB acc l && decide (t.balance_after = acc + txSum l + t.amount)) := by
  induction l generalizing acc with
  | nil => simp [runningOkB, txSum]
  | cons x xs ih => simp [runningOkB, ih, txSum, Bool.and_assoc, add_assoc]

lemma inv_append (st : WalletState) (p₁ : Profile) (t : WalletTx)
    (hamt : t.amount = p₁.balance - st.profile.balance)
    (hba : t.balance_after = p₁.balance)
    (h : LedgerInv st) : LedgerInv ⟨p₁, st.log ++ [t]⟩ := by
  obtain ⟨h1, h2⟩ := h
  constructor
  · simp only [txSum_append, hamt, ← h1]
    ring
  · simp only [runningOkB_append, h2, Bool.true_and, decide_eq_true_eq, hba, hamt, ← h1]
    ring

lemma deduct_false_frame (cfg : FetchConfig) (db : List CurrencyRate) (p : Profile)
    (a : AmountInput) (c : Option String) (an : Bool)
    (h : (deduct_balance cfg db p a c an).1 = false) :
    (deduct_balance cfg db p a c an).2 = p := by
  cases a with
  | invalid => rfl
  | num q =>
    simp only [deduct_balance] at h ⊢
    split_ifs at h ⊢ <;> simp_all

lemma applyOp_preserves (cfg : FetchConfig) (db : List CurrencyRate)
    (st : WalletState) (op : LedgerOp) (h : LedgerInv st) :
    LedgerInv (applyOp cfg db st op) := by
  cases op with
  | topup a c =>
    cases a with
    | invalid => exact h
    | num amt =>
      simp only [applyOp, wallet_topup_post, Bool.false_eq_true, if_false]
      by_cases h1 : amt ≤ 0
      · simp only [if_pos h1]; exact h
      · simp only [if_neg h1]
        by_cases h2 : amt < convert_amount cfg db 1 "USD" c
        · simp only [if_pos h2]; exact h
        · simp only [if_neg h2]
          by_cases hc : c ≠ st.profile.preferred_currency
          · simp only [if_pos hc]
            refine inv_append st _ _ ?_ ?_ h <;> rfl
          · simp only [if_neg hc]
            refine inv_append st _ _ ?_ ?_ h <;> rfl
  | pay u t c =>
    simp only [applyOp, order_pay_post, Bool.false_eq_true, if_false]
    by_cases h1 : (u = true) ∧ 0 < st.profile.balance
    · simp only [if_pos h1]
      generalize (if c ≠ st.profile.preferred_currency
        then convert_amount cfg db t c st.profile.preferred_currency else t) = tc
      by_cases h2 : st.profile.balance ≥ tc
      · simp only [if_pos h2]
        by_cases h3 : (deduct_balance cfg db st.profile (.num tc)
            (some st.profile.preferred_currency) false).1 = true
        · simp only [if_pos h3]
          refine inv_append st _ _ ?_ ?_ h
          · ring
          · rfl
        · simp only [if_neg h3]
          rw [deduct_false_frame cfg db st.profile _ _ false (by simpa using h3)]
          exact h
      · simp only [if_neg h2]; exact h
    · simp only [if_neg h1]; exact h

lemma foldl_preserves (cfg : FetchConfig) (db : List CurrencyRate)
    (ops : List LedgerOp) (st : WalletState) (h : LedgerInv st) :
    LedgerInv (ops.foldl (applyOp cfg db) st) := by
  induction ops generalizing st with
  | nil => exact h
  | cons op rest ih => exact ih _ (applyOp_preserves cfg db st op h)

lemma dget_map_snd (k : String) (f : ℚ → ℚ) :
    ∀ l : List (String × ℚ),
      dget k (l.map (fun cv => (cv.1, f cv.2))) = (dget k l).map f
  | [] => rfl
  | (k₁, v) :: rest => by
      by_cases h : k₁ = k <;> simp [dget, h, dget_map_snd k f rest]

/-! ## Claims -/

/-- Claim C1 (ledger sum invariant): for any sequence of top-up and purchase
operations applied to a fresh user with balance 0 and a fixed preferred
currency, the final balance equals the sum of all recorded
`WalletTransaction.amount` values, and every `balance_after` equals the
running sum of amounts up to and including that transaction in creation
order. -/
theorem ledger_sum_invariant (cfg : FetchConfig) (db : List CurrencyRate)
    (c : String) (ops : List LedgerOp) :
    (ops.foldl (applyOp cfg db) ⟨⟨0, c⟩, []⟩).profile.balance
        = txSum (ops.foldl (applyOp cfg db) ⟨⟨0, c⟩, []⟩).log
      ∧ runningOkB 0 (ops.foldl (applyOp cfg db) ⟨⟨0, c⟩, []⟩).log = true :=
  foldl_preserves cfg db ops ⟨⟨0, c⟩, []⟩ ⟨by simp [txSum], rfl⟩

/-- Claim C2 (insufficient funds blocks mutation): for every profile and
positive amount, when the balance minus the converted amount is below zero and
`allow_negative` is off, `deduct_balance` returns `false` with the profile
unchanged, and the pay flow leaves the whole wallet state — including the
transaction log — untouched. -/
theorem insufficient_funds_blocks_mutation (cfg : FetchConfig)
    (db : List CurrencyRate) (p : Profile) (amt : ℚ) (cur : String)
    (hpos : 0 < amt)
    (hneg : p.balance - (if cur ≠ p.preferred_currency
        then convert_amount cfg db amt cur p.preferred_currency else amt) < 0) :
    deduct_balance cfg db p (.num amt) (some cur) false = (false, p) ∧
    ∀ (log : List WalletTx) (lf u : Bool),
      order_pay_post cfg db lf ⟨p, log⟩ u amt cur = ⟨p, log⟩ := by
  constructor
  · simp only [deduct_balance, Option.getD_some]
    rw [if_neg (not_le.mpr hpos)]
    rw [if_pos ⟨trivial, hneg⟩]
  · intro log lf u
    simp only [order_pay_post]
    by_cases h1 : (u = true) ∧ 0 < p.balance
    · have hlt : ¬ p.balance ≥ (if cur ≠ p.preferred_currency
          then convert_amount cfg db amt cur p.preferred_currency else amt) := by
        rw [ge_iff_le, not_le]
        linarith [hneg]
      rw [if_pos h1, if_neg hlt]
    · rw [if_neg h1]

/-- Witness for C2: with balance 5.00 and a same-currency debit of 10.00,
`deduct_balance` returns `false` and the balance stays 5.00. -/
theorem insufficient_funds_witness :
    deduct_balance ⟨false, none⟩ [] ⟨5, "USD"⟩ (.num 10) (some "USD") false
      = (false, ⟨5, "USD"⟩) := by
  have h := insufficient_funds_blocks_mutation ⟨false, none⟩ [] ⟨5, "USD"⟩ 10 "USD"
    (by norm_num) (by norm_num)
  exact h.1

/-- Counterexample to claim C3 (atomicity of balance mutation and log append):
on a fresh USD user, a top-up of 5 whose `WalletTransaction` write fails
leaves the balance mutated (0 → 5) with no transaction record appended — the
claimed rollback does not happen. -/
theorem log_append_failure_cex :
    ¬ atomicLogAppend ⟨⟨0, "USD"⟩, []⟩
        (wallet_topup_post ⟨false, none⟩ [] true ⟨⟨0, "USD"⟩, []⟩ (.num 5) "USD") := by
  have hmin : convert_amount ⟨false, none⟩ [] 1 "USD" "USD" = 1 := by
    norm_num [convert_amount, quantize2]
  intro h
  have := h (by
    simp only [wallet_topup_post, hmin]
    norm_num [add_balance])
  simp only [wallet_topup_post, hmin] at this
  norm_num [add_balance] at this

/-- Claim C3 as amended: when the transaction-log write fails, both wallet
flows swallow the exception — the profile mutation is exactly the one of the
successful run (no rollback) and no transaction record is appended. -/
theorem log_append_failure_swallowed (cfg : FetchConfig) (db : List CurrencyRate)
    (st : WalletState) :
    (∀ (a : AmountInput) (c : String),
      (wallet_topup_post cfg db true st a c).log = st.log ∧
      (wallet_topup_post cfg db true st a c).profile
        = (wallet_topup_post cfg db false st a c).profile) ∧
    (∀ (u : Bool) (t : ℚ) (oc : String),
      (order_pay_post cfg db true st u t oc).log = st.log ∧
      (order_pay_post cfg db true st u t oc).profile
        = (order_pay_post cfg db false st u t oc).profile) := by
  constructor
  · intro a c
    cases a with
    | invalid => exact ⟨rfl, rfl⟩
    | num amt =>
      simp only [wallet_topup_post]
      split_ifs <;> simp_all
  · intro u t oc
    simp only [order_pay_post]
    split_ifs <;> simp_all

/-- Claim C4 (currency re-denomination): changing the preferred currency is a
no-op when the new currency equals the current one; otherwise the balance
becomes `convert_amount(balance, old, new)`, the preferred currency becomes
the new one (both updated in the same returned profile), and no
`WalletTransaction` row is recorded. -/
theorem change_preferred_currency_spec (cfg : FetchConfig) (db : List CurrencyRate)
    (st : WalletState) (new_cur : String) :
    (new_cur = st.profile.preferred_currency →
      settings_change_currency cfg db st new_cur = st ∧
      convert_balance cfg db st.profile new_cur = st.profile) ∧
    (new_cur ≠ st.profile.preferred_currency →
      (settings_change_currency cfg db st new_cur).profile.balance
        = convert_amount cfg db st.profile.balance st.profile.preferred_currency new_cur ∧
      (settings_change_currency cfg db st new_cur).profile.preferred_currency = new_cur ∧
      (settings_change_currency cfg db st new_cur).log = st.log) := by
  constructor
  · intro he
    constructor
    · simp [settings_change_currency, he]
    · simp [convert_balance, he]
  · intro hne
    simp [settings_change_currency, convert_balance, hne]

/-- Witness for C4: USD → EUR on balance 10 re-denominates via
`convert_amount` and records nothing; USD → USD is a no-op. -/
theorem change_preferred_currency_witness :
    (settings_change_currency ⟨false, none⟩ [] ⟨⟨10, "USD"⟩, []⟩ "EUR").profile.balance
      = convert_amount ⟨false, none⟩ [] 10 "USD" "EUR" ∧
    (settings_change_currency ⟨false, none⟩ [] ⟨⟨10, "USD"⟩, []⟩ "EUR").profile.preferred_currency
      = "EUR" ∧
    (settings_change_currency ⟨false, none⟩ [] ⟨⟨10, "USD"⟩, []⟩ "EUR").log = [] ∧
    (settings_change_currency ⟨false, none⟩ [] ⟨⟨10, "USD"⟩, []⟩ "USD") = ⟨⟨10, "USD"⟩, []⟩ := by
  refine ⟨?_, ?_, ?_, ?_⟩
  · exact ((change_preferred_currency_spec ⟨false, none⟩ [] ⟨⟨10, "USD"⟩, []⟩ "EUR").2
      (by decide)).1
  · exact ((change_preferred_currency_spec ⟨false, none⟩ [] ⟨⟨10, "USD"⟩, []⟩ "EUR").2
      (by decide)).2.1
  · exact ((change_preferred_currency_spec ⟨false, none⟩ [] ⟨⟨10, "USD"⟩, []⟩ "EUR").2
      (by decide)).2.2
  · exact ((change_preferred_currency_spec ⟨false, none⟩ [] ⟨⟨10, "USD"⟩, []⟩ "USD").1 rfl).1

/-- Claim C5 (static fallback is deterministic): with live fetch disabled and
no persisted records the resolver returns the static derivation
(`derived[c] = fallback[c] / fallback[base]` for a known non-USD base), so
`convert_amount(10, USD, EUR) = 9.20` and `convert_amount(41, UAH, USD) = 1.00`,
each rounded half-up to 2 decimals. -/
theorem static_fallback_deterministic (base t : String) (rb : ℚ)
    (r : Option (List (String × ℚ))) :
    fetch_rates ⟨false, r⟩ [] base = staticRates base ∧
    (dget base FALLBACK_USD = some rb → base ≠ "USD" →
      dget t (staticRates base) = (dget t FALLBACK_USD).map (fun v => v / rb)) ∧
    convert_amount ⟨false, none⟩ [] 10 "USD" "EUR" = 92/10 ∧
    convert_amount ⟨false, none⟩ [] 41 "UAH" "USD" = 1 := by
  refine ⟨rfl, ?_, ?_, ?_⟩
  · intro hlk hne
    simp only [staticRates, if_neg hne, hlk]
    exact dget_map_snd t (fun v => v / rb) FALLBACK_USD
  · simp +decide only [convert_amount, fetch_rates, dbOrStatic, dbRatesFor, staticRates, dget,
      FALLBACK_USD, List.filter, List.take, List.foldl, List.isEmpty]
    norm_num [quantize2]
  · simp +decide only [convert_amount, fetch_rates, dbOrStatic, dbRatesFor, staticRates, dget,
      FALLBACK_USD, List.filter, List.take, List.foldl, List.isEmpty, List.map]
    norm_num [quantize2]

/-- Witness for C5: instantiated at base UAH (rate 41), target USD. -/
theorem static_fallback_witness :
    dget "USD" (staticRates "UAH") = (dget "USD" FALLBACK_USD).map (fun v => v / 41) ∧
    convert_amount ⟨false, none⟩ [] 10 "USD" "EUR" = 92/10 ∧
    convert_amount ⟨false, none⟩ [] 41 "UAH" "USD" = 1 := by
  have h := static_fallback_deterministic "UAH" "USD" 41 none
  exact ⟨h.2.1 (by simp [FALLBACK_USD, dget]) (by decide), h.2.2.1, h.2.2.2⟩

/-- Claim C6, evaluated at the failing input: with two stored records for
(EUR, USD) — rate 2 at time 2 and rate 1 at time 1 — the DB fallback of
`_fetch_rates` returns the OLDER rate 1 for USD (the newest-first dict
comprehension lets older duplicates overwrite newer ones), while the most
recent record by `fetched_at` (as `CurrencyRate.latest_rate` computes) has
rate 2.  The claim that the greatest-`fetched_at` record is authoritative is
therefore violated by the code. -/
theorem stale_db_fallback_rate :
    latest_rate [⟨"EUR", "USD", 2, 2⟩, ⟨"EUR", "USD", 1, 1⟩] "EUR" "USD" = some 2 ∧
    dget "USD" (dbRatesFor [⟨"EUR", "USD", 2, 2⟩, ⟨"EUR", "USD", 1, 1⟩] "EUR") = some 1 ∧
    (∀ r : Option (List (String × ℚ)),
      dget "USD" (fetch_rates ⟨false, r⟩ [⟨"EUR", "USD", 2, 2⟩, ⟨"EUR", "USD", 1, 1⟩] "EUR")
        = some 1) := by
  refine ⟨?_, ?_, ?_⟩
  · simp +decide [latest_rate, sortDesc, insertDesc]
  · simp +decide [dbRatesFor, sortDesc, insertDesc, dget, dinsert, FALLBACK_USD]
  · intro r
    simp +decide [fetch_rates, dbOrStatic, dbRatesFor, sortDesc, insertDesc, dget, dinsert,
      FALLBACK_USD]

/-- Claim C7 (fail-soft totality): `convert_amount` always returns a value
rounded half-up to 2 decimals (it is a total function, never raising), and
whenever the direct rate is absent and the USD pivot is unusable (either USD
rate missing or zero, which Python treats as falsy), the result is the input
amount unmodified except for the rounding. -/
theorem convert_amount_fail_soft (cfg : FetchConfig) (db : List CurrencyRate)
    (amt : ℚ) (fc tc : String) :
    (∃ y, convert_amount cfg db amt fc tc = quantize2 y) ∧
    (dget tc (fetch_rates cfg db fc) = none →
      ((dget fc (fetch_rates cfg db "USD")).getD 0 = 0 ∨
       (dget tc (fetch_rates cfg db "USD")).getD 0 = 0) →
      convert_amount cfg db amt fc tc = quantize2 amt) := by
  constructor
  · by_cases he : fc = tc
    · exact ⟨amt, by simp [convert_amount, he]⟩
    · simp only [convert_amount, if_neg he]
      cases hd : dget tc (fetch_rates cfg db fc) with
      | some rt => exact ⟨amt * rt, rfl⟩
      | none =>
        cases hf : dget fc (fetch_rates cfg db "USD") with
        | none => exact ⟨amt, rfl⟩
        | some rf =>
          cases ht : dget tc (fetch_rates cfg db "USD") with
          | none => exact ⟨amt, rfl⟩
          | some rt =>
            by_cases hz : rf ≠ 0 ∧ rt ≠ 0
            · exact ⟨amt / rf * rt, by simp [hz]⟩
            · exact ⟨amt, by simp [hz]⟩
  · intro hd hz
    by_cases he : fc = tc
    · simp [convert_amount, he]
    · simp only [convert_amount, if_neg he, hd]
      cases hf : dget fc (fetch_rates cfg db "USD") with
      | none => rfl
      | some rf =>
        cases ht : dget tc (fetch_rates cfg db "USD") with
        | none => rfl
        | some rt =>
          rw [hf, ht] at hz
          simp only [Option.getD_some] at hz
          have hno : ¬ (rf ≠ 0 ∧ rt ≠ 0) := by
            rcases hz with h | h
            · exact fun hc => hc.1 h
            · exact fun hc => hc.2 h
          simp [hno]

/-- Witness for C7: converting 3 from USD to the unsupported code XXX finds no
direct rate and no USD pivot rate, so the result is the identity rounding. -/
theorem convert_amount_fail_soft_witness :
    convert_amount ⟨false, none⟩ [] 3 "USD" "XXX" = quantize2 3 := by
  have h := convert_amount_fail_soft ⟨false, none⟩ [] 3 "USD" "XXX"
  exact h.2 (by decide) (Or.inr (by decide))

/-- Claim C8 (round-trip rounding): for every rational x and every currency
code C, `convert_amount(x, C, C)` is x rounded half-up to 2 decimal places,
and the rounding is half-UP — 0.005 rounds to 0.01, not to 0.00 as
round-half-even would give. -/
theorem convert_amount_round_trip (cfg : FetchConfig) (db : List CurrencyRate)
    (x : ℚ) (C : String) :
    convert_amount cfg db x C C = quantize2 x ∧ quantize2 (1/200) = 1/100 := by
  constructor
  · simp [convert_amount]
  · norm_num [quantize2]

/-- Claim C9, evaluated at the failing interleaving: two concurrent debits of
6 against a balance of 10 (allow_negative off).  Under the interleaving where
both processes read the balance before either writes, BOTH calls return true,
the final balance is 4, and two transactions of -6 are committed (replaying
the log gives 10 - 6 - 6 = -2 ≠ 4: a lost update) — the code has no per-user
serialization, so the claimed exactly-one-success does not hold for every
interleaving.  Under the sequential interleaving the claimed outcome does
hold: one success, one failure, balance 4, one committed transaction. -/
theorem concurrent_debit_lost_update :
    ((raceRun ⟨10, [], ⟨6, none, none⟩, ⟨6, none, none⟩⟩ [false, true, false, true]).proc₁.result
        = some true ∧
     (raceRun ⟨10, [], ⟨6, none, none⟩, ⟨6, none, none⟩⟩ [false, true, false, true]).proc₂.result
        = some true ∧
     (raceRun ⟨10, [], ⟨6, none, none⟩, ⟨6, none, none⟩⟩ [false, true, false, true]).balance = 4 ∧
     (raceRun ⟨10, [], ⟨6, none, none⟩, ⟨6, none, none⟩⟩ [false, true, false, true]).log
        = [-6, -6]) ∧
    ((raceRun ⟨10, [], ⟨6, none, none⟩, ⟨6, none, none⟩⟩ [false, false, true, true]).proc₁.result
        = some true ∧
     (raceRun ⟨10, [], ⟨6, none, none⟩, ⟨6, none, none⟩⟩ [false, false, true, true]).proc₂.result
        = some false ∧
     (raceRun ⟨10, [], ⟨6, none, none⟩, ⟨6, none, none⟩⟩ [false, false, true, true]).balance = 4 ∧
     (raceRun ⟨10, [], ⟨6, none, none⟩, ⟨6, none, none⟩⟩ [false, false, true, true]).log
        = [-6]) := by
  constructor
  · norm_num [raceRun, raceStep, procStep, List.foldl]
  · norm_num [raceRun, raceStep, procStep, List.foldl]

/-- Claim C10 (invalid input is indistinguishable from insufficient funds):
`deduct_balance` returns `false` with no state change for invalid and for
non-positive amounts — the same `false` it returns for insufficient funds, so
the caller cannot tell the cases apart from the return value — while
`add_balance` silently no-ops on the same invalid inputs (the Python method
returns None in every case). -/
theorem invalid_amount_indistinguishable (cfg : FetchConfig) (db : List CurrencyRate)
    (p : Profile) (cur : Option String) (alw : Bool) (a : ℚ) :
    deduct_balance cfg db p .invalid cur alw = (false, p) ∧
    (a ≤ 0 → deduct_balance cfg db p (.num a) cur alw = (false, p)) ∧
    add_balance cfg db p .invalid cur = p ∧
    (a ≤ 0 → add_balance cfg db p (.num a) cur = p) ∧
    (0 < a → p.balance - a < 0 →
      (deduct_balance cfg db p (.num a) (some p.preferred_currency) false).1
        = (deduct_balance cfg db p .invalid cur alw).1) := by
  refine ⟨rfl, ?_, rfl, ?_, ?_⟩
  · intro hle
    simp [deduct_balance, hle]
  · intro hle
    simp [add_balance, hle]
  · intro hpos hneg
    simp only [deduct_balance, Option.getD_some]
    rw [if_neg (not_le.mpr hpos)]
    simp [hneg]

/-- Witness for C10: invalid input, a negative amount, and an insufficient
debit all surface as the same observable behaviour. -/
theorem invalid_amount_witness :
    deduct_balance ⟨false, none⟩ [] ⟨5, "USD"⟩ .invalid none false = (false, ⟨5, "USD"⟩) ∧
    deduct_balance ⟨false, none⟩ [] ⟨5, "USD"⟩ (.num (-3)) none false = (false, ⟨5, "USD"⟩) ∧
    add_balance ⟨false, none⟩ [] ⟨5, "USD"⟩ (.num (-3)) none = ⟨5, "USD"⟩ ∧
    (deduct_balance ⟨false, none⟩ [] ⟨5, "USD"⟩ (.num 10) (some "USD") false).1
      = (deduct_balance ⟨false, none⟩ [] ⟨5, "USD"⟩ .invalid none false).1 := by
  have h := invalid_amount_indistinguishable ⟨false, none⟩ [] ⟨5, "USD"⟩ none false (-3)
  have h2 := invalid_amount_indistinguishable ⟨false, none⟩ [] ⟨5, "USD"⟩ none false 10
  exact ⟨h.1, h.2.1 (by norm_num), h.2.2.2.1 (by norm_num),
    h2.2.2.2.2 (by norm_num) (by norm_num)⟩

end SteamWallet
